import Mathlib

/-!
Verification development for the wot.gameface repository.

The repository ships a Gameface UI side (JavaScript under
`resources/in/gui/gameface/`) and a Python reconciliation core managing
`res_map.json` that is described by the specification but whose source is not
part of this snapshot.  The JavaScript side is embedded directly from the
source files; the reconciliation pipeline (fragment loading, key allocation,
catalog merging, the catalog store state machine and the readiness broker) is
modelled from the specification, as noted in the doc comment of each such
definition.
-/

namespace GF

/-! ## View event serialization (`viewEvents.js`) -/

/-- A JavaScript value as far as `serializeEventArgument` distinguishes them:
numbers, booleans, strings, `null`, `undefined`, and everything else
(objects, functions, symbols). -/
inductive JSValue where
  | num (n : Int)
  | bool (b : Bool)
  | str (s : String)
  | null
  | undef
  | other
  deriving DecidableEq, Repr

/-- The serialized payload produced by `serializeEventArgument`:
`{number: v}`, `{bool: v}` or `{string: v}`. -/
inductive GFValue where
  | number (n : Int)
  | bool (b : Bool)
  | string (s : String)
  deriving DecidableEq, Repr

/-- `serializeEventArgument(value)` from `viewEvents.js`: `undefined` returns
no value; then a `switch (typeof value)` returns `{number}`, `{bool}` or
`{string}` for the three supported types; the default branch (including
`null` and objects) returns no value. -/
def serializeEventArgument : JSValue → Option GFValue
  | .num n => some (.number n)
  | .bool b => some (.bool b)
  | .str s => some (.string s)
  | .null => none
  | .undef => none
  | .other => none

/-- One entry of the array built by `createViewEventArguments`:
`{__Type: "GFValueProxy", name: key, ...serialized}`. -/
structure GFValueProxy where
  tp : String
  name : String
  value : GFValue
  deriving DecidableEq, Repr

/-- `createViewEventArguments(args)` from `viewEvents.js`: iterate over
`Object.entries(args)` in order, serialize each value, and push a
`GFValueProxy` entry for each value whose serialization is defined. -/
def createViewEventArguments : List (String × JSValue) → List GFValueProxy
  | [] => []
  | (key, value) :: rest =>
    match serializeEventArgument value with
    | some s => { tp := "GFValueProxy", name := key, value := s } :: createViewEventArguments rest
    | none => createViewEventArguments rest

/-! ## Gameface resource injector (`js/index.js`) -/

/-- Default attributes attached to an asset category: `{rel: "stylesheet"}`
for styles, `{type: "text/javascript"}` for classic scripts and
`{type: "module"}` for ES modules.  A `none` field means the attribute is not
part of the defaults object. -/
structure AssetDefaults where
  rel : Option String := none
  scriptType : Option String := none
  deriving DecidableEq, Repr

/-- One entry of the `assetTypes` array in `index.js`: the logical type name,
the HTML tag to create and the default attributes. -/
structure AssetType where
  type : String
  tag : String
  defaults : AssetDefaults
  deriving DecidableEq, Repr

/-- The first entry of the `assetTypes` array in `index.js`. -/
def styleAT : AssetType :=
  { type := "styles", tag := "link", defaults := { rel := some "stylesheet" } }

/-- The second entry of the `assetTypes` array in `index.js`. -/
def scriptAT : AssetType :=
  { type := "scripts", tag := "script", defaults := { scriptType := some "text/javascript" } }

/-- The third entry of the `assetTypes` array in `index.js`. -/
def moduleAT : AssetType :=
  { type := "modules", tag := "script", defaults := { scriptType := some "module" } }

/-- The `assetTypes` constant of `index.js`. -/
def assetTypes : List AssetType := [styleAT, scriptAT, moduleAT]

/-- A DOM element as created by `injectAsset`: the tag plus the properties
that function can set (`crossOrigin`, `href`, `src`, `defer`, and the
attributes applied by `Object.assign`). -/
structure Element where
  tag : String
  crossOrigin : String
  href : Option String := none
  src : Option String := none
  defer : Bool := false
  rel : Option String := none
  scriptType : Option String := none
  deriving DecidableEq, Repr

/-- `injectAsset(type, tagName, url, attributes)` from `index.js`: create the
element, set `crossOrigin = ""`, set `href = url` for styles or
`src = url; defer = true` otherwise, apply the passed attributes
(`Object.assign` overwrites only the keys present in `attributes`), and
append the element to `document.body`. -/
def injectAsset (ty tagName url : String) (attributes : AssetDefaults)
    (body : List Element) : List Element :=
  let el0 : Element := { tag := tagName, crossOrigin := "" }
  let el1 : Element :=
    if ty = "styles" then { el0 with href := some url }
    else { el0 with src := some url, defer := true }
  let el2 : Element :=
    { el1 with
      rel := match attributes.rel with | some r => some r | none => el1.rel
      scriptType := match attributes.scriptType with | some t => some t | none => el1.scriptType }
  body ++ [el2]

/-- A member of a `ModInjectModel` asset list; `value` holds the asset URL.
`none` for `value` also stands for a missing or falsy `value` property. -/
structure Asset where
  value : Option String
  deriving DecidableEq, Repr

/-- The `ModInjectModel` read off a subView's model: three optional asset
lists (`styles`, `scripts`, `modules`); a list member may itself be null. -/
structure ModInjectModel where
  styles : Option (List (Option Asset)) := none
  scripts : Option (List (Option Asset)) := none
  modules : Option (List (Option Asset)) := none
  deriving DecidableEq, Repr

/-- The JS truthiness test `asset?.value`: the asset is non-null, has a
`value`, and that value is a non-empty string. -/
def assetUrl : Option Asset → Option String
  | some a =>
    match a.value with
    | some u => if u = "" then none else some u
    | none => none
  | none => none

/-- The dynamic lookup `featureModule[type]` for the three asset categories. -/
def modelAssets (m : ModInjectModel) (ty : String) : Option (List (Option Asset)) :=
  if ty = "styles" then m.styles
  else if ty = "scripts" then m.scripts
  else if ty = "modules" then m.modules
  else none

/-- The inner `featureModule[type]?.forEach(...)` loop of `injectModAssets`:
for a present list, inject each asset that passes the `asset?.value` check;
an absent list contributes nothing. -/
def injectList (at_ : AssetType) (assets : Option (List (Option Asset)))
    (body : List Element) : List Element :=
  match assets with
  | none => body
  | some l =>
    l.foldl (fun b a =>
      match assetUrl a with
      | some u => injectAsset at_.type at_.tag u at_.defaults b
      | none => b) body

/-- The `assetTypes.forEach(...)` loop of `injectModAssets`, applied to a
found `ModInjectModel`. -/
def injectAll (m : ModInjectModel) (body : List Element) : List Element :=
  assetTypes.foldl (fun b at_ => injectList at_ (modelAssets m at_.type) b) body

/-- The mutable state touched by `injectModAssets`: the `injectedResIds` set
(kept as the list of inserted ids, in insertion order) and the children of
`document.body`. -/
structure InjectState where
  injectedResIds : List Nat
  dom : List Element
  deriving DecidableEq, Repr

/-- `injectModAssets(resId)` from `index.js`.  `subViews` is the flattening
of `window.subViews.get(resId)?.model?.ModInjectModel`: it returns the model
if the subView exists and carries one.  Skip if `resId` was already
processed; return without recording if there is no model; otherwise record
`resId` and inject all assets. -/
def injectModAssets (subViews : Nat → Option ModInjectModel) (resId : Nat)
    (st : InjectState) : InjectState :=
  if resId ∈ st.injectedResIds then st
  else
    match subViews resId with
    | none => st
    | some m =>
      { injectedResIds := st.injectedResIds ++ [resId]
        dom := injectAll m st.dom }

/-! ## Debug helpers (`mods/libs/media.js`)

JavaScript object graphs may be cyclic, so objects are modelled as a heap:
addresses (`Nat`) mapped to values whose object/array fields hold addresses.
The recursion of `debugObject` and `buildDebugTree` is embedded with an
explicit fuel argument (`none` = fuel exhausted); the termination claims are
statements that a fuel derived from the `maxDepth` bound always suffices. -/

/-- A JavaScript value as `debugObject` case-splits on it: a primitive
(`null`, `undefined` and every non-object, kept as its `String(obj)`
rendering), an array of addresses, or an object mapping keys to addresses. -/
inductive JVal where
  | prim (render : String)
  | arr (elems : List Nat)
  | obj (fields : List (String × Nat))
  deriving DecidableEq, Repr

/-- The `options` object of `debugObject` with its default values. -/
structure DebugOptions where
  indentSize : Nat := 2
  maxDepth : Nat := 10
  showArrayIndex : Bool := true
  deriving DecidableEq, Repr

/-- The `index: ` marker prepended to array members when `showArrayIndex`. -/
def arrayIndexMarker (opts : DebugOptions) (i : Nat) : String :=
  if opts.showArrayIndex then Nat.repr i ++ ": " else ""

mutual

/-- `debugObject(obj, options, currentDepth, prefixStr)` from `media.js`,
with fuel.  Output is the list of `console.error` lines.  The depth guard
comes first; primitives print directly; arrays and objects print a bracket
line, recurse into each member at `currentDepth + 1`, and close the
bracket. -/
def debugObjectF (heap : Nat → JVal) (opts : DebugOptions) :
    Nat → Nat → Nat → String → Option (List String)
  | 0, _, _, _ => none
  | fuel + 1, a, currentDepth, pfx =>
    let indent := String.mk (List.replicate (currentDepth * opts.indentSize) ' ')
    if currentDepth > opts.maxDepth then
      some [indent ++ pfx ++ "... [max depth reached]"]
    else
      match heap a with
      | .prim s => some [indent ++ pfx ++ s]
      | .arr [] => some [indent ++ pfx ++ "[]"]
      | .arr (e :: es) =>
        match debugChildrenF heap opts fuel
            (((e :: es).enum).map fun p => (arrayIndexMarker opts p.1, p.2))
            (currentDepth + 1) with
        | none => none
        | some ls => some ((indent ++ pfx ++ "[") :: ls ++ [indent ++ "]"])
      | .obj [] => some [indent ++ pfx ++ "\x7b\x7d"]
      | .obj (f :: fs) =>
        match debugChildrenF heap opts fuel
            ((f :: fs).map fun p => (p.1 ++ ": ", p.2)) (currentDepth + 1) with
        | none => none
        | some ls => some ((indent ++ pfx ++ "\x7b") :: ls ++ [indent ++ "\x7d"])
termination_by fuel a d p => (fuel, 0)

/-- The `forEach` loops of `debugObject` over array members and object
fields: each pending `(prefixStr, address)` pair is printed in order at the
given depth. -/
def debugChildrenF (heap : Nat → JVal) (opts : DebugOptions) :
    Nat → List (String × Nat) → Nat → Option (List String)
  | _, [], _ => some []
  | fuel, (p, a) :: rest, d =>
    match debugObjectF heap opts fuel a d p, debugChildrenF heap opts fuel rest d with
    | some ls, some rs => some (ls ++ rs)
    | _, _ => none
termination_by fuel l d => (fuel, l.length + 1)

end

/-- The top-level call `debugObject(obj, options)`: `currentDepth = 0`, empty
line marker, and fuel `maxDepth + 2` (shown sufficient below). -/
def debugObject (heap : Nat → JVal) (opts : DebugOptions) (a : Nat) :
    Option (List String) :=
  debugObjectF heap opts (opts.maxDepth + 2) a 0 ""

/-- A DOMRect as serialized into the debug tree. -/
structure DomRect where
  x : Int
  y : Int
  width : Int
  height : Int
  top : Int
  right : Int
  bottom : Int
  left : Int
  deriving DecidableEq, Repr

/-- A DOM element as read by `buildDebugTree`: tag name, attributes, inline
styles, text content, an optional bounding rect (`none` models
`getBoundingClientRect` not being a function) and child element addresses. -/
structure DomElem where
  tagName : String
  attributes : List (String × String)
  styles : List (String × String)
  textContent : Option String
  rect : Option DomRect
  children : List Nat
  deriving DecidableEq, Repr

/-- The node object built by `buildDebugTree`. -/
inductive DebugNode where
  | mk (tag : String) (attributes : List (String × String))
      (styles : List (String × String)) (content : Option String)
      (depth : Nat) (children : List DebugNode) (rect : Option DomRect)

/-- The shortened text content: trim, and truncate to 100 characters with an
ellipsis when longer. -/
def shortTextOf (t : String) : String :=
  let tc := t.trim
  if tc.length > 100 then tc.take 100 ++ "..." else tc

mutual

/-- `buildDebugTree(element, depth, maxDepth)` from `media.js`, with fuel.
The outer `Option` is fuel exhaustion; the inner `Option` is the JS `null`
returned for an invalid element or once `depth > maxDepth`. -/
def buildDebugTreeF (dom : Nat → Option DomElem) :
    Nat → Nat → Nat → Nat → Option (Option DebugNode)
  | 0, _, _, _ => none
  | fuel + 1, a, depth, maxDepth =>
    match dom a with
    | none => some none
    | some el =>
      if depth > maxDepth then some none
      else
        match buildChildrenF dom fuel el.children (depth + 1) maxDepth with
        | none => none
        | some cs =>
          some (some (.mk el.tagName el.attributes el.styles
            (el.textContent.map shortTextOf) depth cs el.rect))
termination_by fuel a d m => (fuel, 0)

/-- The child loop of `buildDebugTree`: build each child at `depth + 1` and
keep only the non-null results, in order. -/
def buildChildrenF (dom : Nat → Option DomElem) :
    Nat → List Nat → Nat → Nat → Option (List DebugNode)
  | _, [], _, _ => some []
  | fuel, c :: rest, depth, maxDepth =>
    match buildDebugTreeF dom fuel c depth maxDepth,
        buildChildrenF dom fuel rest depth maxDepth with
    | some cn, some rs =>
      some (match cn with | some n => n :: rs | none => rs)
    | _, _ => none
termination_by fuel l d m => (fuel, l.length + 1)

end

/-- The call made by `debugElement`: `buildDebugTree(element, 0, 10)`, with
the sufficient fuel `maxDepth + 2 = 12`. -/
def buildDebugTree (dom : Nat → Option DomElem) (a : Nat) :
    Option (Option DebugNode) :=
  buildDebugTreeF dom 12 a 0 10

/-! ## Resource map reconciliation core

The Python module managing `res_map.json` is not part of this source
snapshot; its fragment loader, key allocator, catalog merger, catalog store
and readiness broker are modelled from the specification (sections 3 and
4.1-4.6). -/

/-- Modelled from the spec: the content of a FragmentItem excluding `itemID`
(spec section 3, CatalogEntry), kept as an ordered list of key/value
pairs. -/
abbrev Entry := List (String × String)

/-- Modelled from the spec: a catalog, a mapping from (string) key to entry
(spec section 3, Combined Catalog). -/
abbrev Catalog := List (String × Entry)

/-- Modelled from the spec: one parsed member of a fragment file before
validation; `itemID` is `none` when the item lacks a well-formed string
`itemID` (spec section 4.1). -/
structure RawItem where
  itemID : Option String
  content : Entry
  deriving DecidableEq, Repr

/-- Modelled from the spec: an accepted FragmentItem, with its mandatory
`itemID` (spec section 3). -/
structure FragmentItem where
  itemID : String
  content : Entry
  deriving DecidableEq, Repr

/-- Modelled from the spec: a Fragment is an ordered sequence of items (spec
section 3). -/
abbrev Fragment := List RawItem

/-- One hexadecimal digit, lowercase. -/
def hexDigit (n : Nat) : Char :=
  if n < 10 then Char.ofNat (48 + n) else Char.ofNat (87 + n)

/-- A 32-bit value rendered as exactly eight hexadecimal characters. -/
def toHex32 (n : Nat) : String :=
  String.mk ((List.range 8).map fun i => hexDigit (n / 16 ^ (7 - i) % 16))

/-- Modelled from the spec: a fixed-width (32-bit) deterministic hash of a
string, the spec's recommended basis for key derivation (spec section
4.2). -/
def strHash (s : String) : Nat :=
  s.data.foldl (fun h c => (h * 31 + c.toNat) % 4294967296) 5381

/-- Modelled from the spec: the hexadecimal key derived from an `itemID`
alone, before collision disambiguation (spec section 4.2). -/
def baseKey (itemID : String) : String := toHex32 (strHash itemID)

/-- Modelled from the spec: the `i`-th disambiguation candidate for an
`itemID`: the base key extended by a deterministic suffix, longer at each
attempt (spec section 4.2 leaves the exact tie-break scheme open, requiring
only determinism). -/
def candidateKey (itemID : String) (i : Nat) : String :=
  baseKey itemID ++ String.mk (List.replicate i 'f')

/-- Modelled from the spec: the Key Allocator (spec section 4.2).  Try
disambiguation candidates in order until one avoids every key in `used`;
`used.length + 1` attempts always suffice, so the `none`
(KeyAllocationExhaustedError) branch is unreachable, as the spec calls it
"practically unreachable". -/
def allocKey (used : List String) (itemID : String) : Option String :=
  ((List.range (used.length + 1)).find? fun i =>
    decide (candidateKey itemID i ∉ used)).map (candidateKey itemID)

/-- Modelled from the spec: the Fragment Loader's item validation (spec
section 4.1).  Walk the concatenated items of all fragments with the set of
already seen `itemID`s: an item lacking a well-formed `itemID` is skipped
and counted; a duplicate `itemID` is skipped and reported
(DuplicateIdentifierError, the reported id collected in order); the first
occurrence wins.  Returns (accepted items, duplicate errors, invalid-item
count). -/
def collectItems : List RawItem → List String → List FragmentItem × List String × Nat
  | [], _ => ([], [], 0)
  | it :: rest, seen =>
    match it.itemID with
    | none =>
      let (acc, dups, inv) := collectItems rest seen
      (acc, dups, inv + 1)
    | some i =>
      if i ∈ seen then
        let (acc, dups, inv) := collectItems rest seen
        (acc, i :: dups, inv)
      else
        let (acc, dups, inv) := collectItems rest (i :: seen)
        ({ itemID := i, content := it.content } :: acc, dups, inv)

/-- Modelled from the spec: key allocation over the ordered accepted items
(spec sections 4.2 and 4.3).  `used` starts as the original catalog's keys
and grows with each generated key.  Returns the IdentifierIndex entries
(`itemID` to generated key), the generated catalog entries in order, and the
`itemID`s of items skipped by KeyAllocationExhaustedError. -/
def allocItems (used : List String) :
    List FragmentItem → List (String × String) × List (String × Entry) × List String
  | [] => ([], [], [])
  | it :: rest =>
    match allocKey used it.itemID with
    | none =>
      let (idx, gens, errs) := allocItems used rest
      (idx, gens, it.itemID :: errs)
    | some k =>
      let (idx, gens, errs) := allocItems (k :: used) rest
      ((it.itemID, k) :: idx, (k, it.content) :: gens, errs)

/-- Modelled from the spec: the Catalog Merger (spec section 4.3): the
candidate combined catalog is the original catalog's entries unchanged plus
one entry per accepted FragmentItem at its allocated key. -/
def buildCandidate (original : Catalog) (frags : List Fragment) : Catalog :=
  let (accepted, _, _) := collectItems frags.flatten []
  let (_, gens, _) := allocItems (original.map Prod.fst) accepted
  original ++ gens

/-- Modelled from the spec: the IdentifierIndex built by a run: `itemID` to
generated key, in allocation order (spec sections 3 and 4.2). -/
def identifierIndex (original : Catalog) (frags : List Fragment) :
    List (String × String) :=
  let (accepted, _, _) := collectItems frags.flatten []
  let (idx, _, _) := allocItems (original.map Prod.fst) accepted
  idx

/-- Modelled from the spec: the duplicate-identifier errors reported by a
run (spec sections 4.1 and 7). -/
def dupErrorsOf (frags : List Fragment) : List String :=
  let (_, dups, _) := collectItems frags.flatten []
  dups

/-- Modelled from the spec: the Catalog Store's `equals` (spec section
4.4): deep structural equality of two catalogs, independent of key insertion
order. -/
def catalogEquals (c1 c2 : Catalog) : Bool :=
  (c1.map Prod.fst ++ c2.map Prod.fst).all fun k =>
    List.lookup k c1 == List.lookup k c2

/-- Modelled from the spec: the state owned by the Catalog Store: the
persisted combined catalog if present, and the RestartFlag marker (spec
sections 3 and 4.4). -/
structure StoreState where
  combined : Option Catalog
  restartFlag : Bool
  deriving DecidableEq, Repr

/-- Modelled from the spec: the observable effects of one run: how many
times `persist` was invoked, how many times `request_restart` was called,
whether a restart was actually signaled (the flag was clear), whether the
run deleted the stale combined catalog, and whether validation succeeded
(spec sections 4.4-4.6). -/
structure RunOutcome where
  persistCount : Nat
  restartRequests : Nat
  restartSignaled : Bool
  deletedCombined : Bool
  validated : Bool
  deriving DecidableEq, Repr

/-- Modelled from the spec: `request_restart()` (spec section 4.6): set the
RestartFlag then signal restart; a no-op if the flag is already set.  The
returned Bool is whether the restart was actually signaled. -/
def requestRestart (st : StoreState) : StoreState × Bool :=
  if st.restartFlag then (st, false)
  else ({ st with restartFlag := true }, true)

/-- Modelled from the spec: one run of the reconciliation pipeline over the
Catalog Store state machine (spec section 4.4, paths 1-5): no fragments and
no persisted catalog is a no-op; no fragments with a stale persisted catalog
deletes it without raising restart; fragments without a persisted catalog
persist the candidate and request restart; an unchanged candidate is not
rewritten, the pending restart flag is cleared and the run validates; a
changed candidate is persisted and restart is requested.  Validation
succeeds exactly on the paths that end without requesting a restart, and the
flag is cleared when validation succeeds (spec sections 4.5 and 5). -/
def runPipeline (original : Catalog) (frags : List Fragment) (st : StoreState) :
    StoreState × RunOutcome :=
  if frags.isEmpty then
    match st.combined with
    | none =>
      ({ st with restartFlag := false },
        { persistCount := 0, restartRequests := 0, restartSignaled := false,
          deletedCombined := false, validated := true })
    | some _ =>
      ({ combined := none, restartFlag := false },
        { persistCount := 0, restartRequests := 0, restartSignaled := false,
          deletedCombined := true, validated := true })
  else
    let candidate := buildCandidate original frags
    match st.combined with
    | none =>
      let (st1, sig) := requestRestart { st with combined := some candidate }
      (st1,
        { persistCount := 1, restartRequests := 1, restartSignaled := sig,
          deletedCombined := false, validated := false })
    | some existing =>
      if catalogEquals candidate existing then
        ({ st with restartFlag := false },
          { persistCount := 0, restartRequests := 0, restartSignaled := false,
            deletedCombined := false, validated := true })
      else
        let (st1, sig) := requestRestart { st with combined := some candidate }
        (st1,
          { persistCount := 1, restartRequests := 1, restartSignaled := sig,
            deletedCombined := false, validated := false })

/-- Modelled from the spec: the Readiness Broker's callback state (spec
section 4.5): whether validation succeeded, the queue of registered
callbacks awaiting validation (in registration order), and the invocation
log (callbacks are named by numbers; the log lists them in invocation
order). -/
structure BrokerState where
  validated : Bool
  queue : List Nat
  log : List Nat
  deriving DecidableEq, Repr

/-- Modelled from the spec: `on_ready(callback)` (spec section 4.5): invoke
the callback synchronously and immediately when already validated, otherwise
queue it. -/
def onReady (cb : Nat) (br : BrokerState) : BrokerState :=
  if br.validated then { br with log := br.log ++ [cb] }
  else { br with queue := br.queue ++ [cb] }

/-- Modelled from the spec: the moment validation succeeds (spec section
4.5): every queued callback is invoked exactly once, in registration order,
and the state becomes Validated. -/
def fireValidated (br : BrokerState) : BrokerState :=
  { validated := true, queue := [], log := br.log ++ br.queue }

/-- Modelled from the spec: one run of the pipeline together with the
Readiness Broker: queued callbacks fire only when the run validates; when a
restart is requested instead, no queued callback fires this process lifetime
(spec section 4.5). -/
def runFull (original : Catalog) (frags : List Fragment) (st : StoreState)
    (br : BrokerState) : StoreState × RunOutcome × BrokerState :=
  let (st1, o) := runPipeline original frags st
  (st1, o, if o.validated then fireValidated br else br)

/-! ## Derived definitions used by the statements -/

/-- The items of a run accepted by the Fragment Loader. -/
def acceptedItems (frags : List Fragment) : List FragmentItem :=
  (collectItems frags.flatten []).1

/-- The generated (key, entry) pairs of a run, in allocation order. -/
def generatedEntries (original : Catalog) (frags : List Fragment) :
    List (String × Entry) :=
  (allocItems (original.map Prod.fst) (acceptedItems frags)).2.1

/-- The element value `injectAsset` builds and appends, as a standalone
function of its arguments. -/
def builtElem (ty tagName url : String) (attributes : AssetDefaults) : Element :=
  let el0 : Element := { tag := tagName, crossOrigin := "" }
  let el1 : Element :=
    if ty = "styles" then { el0 with href := some url }
    else { el0 with src := some url, defer := true }
  { el1 with
    rel := match attributes.rel with | some r => some r | none => el1.rel
    scriptType := match attributes.scriptType with | some t => some t | none => el1.scriptType }

/-- The element the claim describes for a style asset: a `link` element with
`rel` set to `"stylesheet"` and `href` set to the asset URL. -/
def styleElem (u : String) : Element :=
  { tag := "link", crossOrigin := "", href := some u, src := none,
    defer := false, rel := some "stylesheet", scriptType := none }

/-- The element the claim describes for a classic script asset: a `script`
element with `type` `"text/javascript"` and `src` set to the asset URL. -/
def scriptElem (u : String) : Element :=
  { tag := "script", crossOrigin := "", href := none, src := some u,
    defer := true, rel := none, scriptType := some "text/javascript" }

/-- The element the claim describes for a module script asset: a `script`
element with `type` `"module"` and `src` set to the asset URL. -/
def moduleElem (u : String) : Element :=
  { tag := "script", crossOrigin := "", href := none, src := some u,
    defer := true, rel := none, scriptType := some "module" }

/-! ## Concrete fixtures used by witnesses -/

/-- A concrete injection model: one style sheet and one module script. -/
def mW : ModInjectModel :=
  { styles := some [some { value := some "mods/a.css" }]
    scripts := none
    modules := some [some { value := some "mods/b.mjs" }, none] }

/-- A subView table holding `mW` at resId 5 and nothing elsewhere. -/
def svW : Nat → Option ModInjectModel :=
  fun r => if r = 5 then some mW else none

/-- A subView table with no injection model anywhere. -/
def svNone : Nat → Option ModInjectModel := fun _ => none

/-- A concrete fragment list: a single fragment with a single item. -/
def fragsW : List Fragment :=
  [[{ itemID := some "mods/testDialog/title", content := [("v", "1")] }]]

/-- A concrete fragment list declaring the same `itemID` twice, across two
fragments. -/
def fragsDup : List Fragment :=
  [[{ itemID := some "dup/key", content := [("v", "1")] }],
    [{ itemID := some "dup/key", content := [("v", "2")] }]]

/-- A concrete original catalog with one entry. -/
def origW : Catalog := [("00000001", [("layout", "main")])]

/-- A concrete cyclic heap: every address holds a one-element array pointing
back at itself. -/
def cyclicHeap : Nat → JVal := fun a => .arr [a]

/-- A concrete cyclic DOM: every address holds an element whose only child
is itself. -/
def cyclicDom : Nat → Option DomElem :=
  fun a => some
    { tagName := "div", attributes := [], styles := [], textContent := none,
      rect := none, children := [a] }

/-! ## Theorems -/

/-- C9: `serializeEventArgument(v)` returns `{number: v}` when `v` is a
number, `{bool: v}` when a boolean, `{string: v}` when a string, and no
value for every other input including `null` and `undefined`; consequently
`createViewEventArguments(args)` returns exactly one `GFValueProxy` entry
per key of `args` whose value has one of those three types, in the
enumeration order of `Object.entries(args)`, omitting all other keys. -/
theorem serializeEventArgument_spec :
    (∀ n : Int, serializeEventArgument (.num n) = some (.number n)) ∧
    (∀ b : Bool, serializeEventArgument (.bool b) = some (.bool b)) ∧
    (∀ s : String, serializeEventArgument (.str s) = some (.string s)) ∧
    serializeEventArgument .null = none ∧
    serializeEventArgument .undef = none ∧
    serializeEventArgument .other = none ∧
    ∀ args : List (String × JSValue),
      createViewEventArguments args = args.filterMap fun kv =>
        (serializeEventArgument kv.2).map fun s =>
          { tp := "GFValueProxy", name := kv.1, value := s } := by
  refine ⟨fun _ => rfl, fun _ => rfl, fun _ => rfl, rfl, rfl, rfl, ?_⟩
  intro args
  induction args with
  | nil => rfl
  | cons kv rest ih =>
    obtain ⟨k, v⟩ := kv
    cases h : serializeEventArgument v <;>
      simp [createViewEventArguments, h, ih, List.filterMap_cons]

theorem injectAsset_append (ty tagName url : String) (attrs : AssetDefaults)
    (body : List Element) :
    injectAsset ty tagName url attrs body = body ++ [builtElem ty tagName url attrs] := rfl

theorem injectList_some (at_ : AssetType) (l : List (Option Asset)) :
    ∀ body : List Element,
      injectList at_ (some l) body =
        body ++ (l.filterMap assetUrl).map
          (fun u => builtElem at_.type at_.tag u at_.defaults) := by
  induction l with
  | nil => intro body; simp [injectList]
  | cons a rest ih =>
    intro body
    have step : injectList at_ (some (a :: rest)) body =
        injectList at_ (some rest)
          (match assetUrl a with
            | some u => injectAsset at_.type at_.tag u at_.defaults body
            | none => body) := rfl
    rw [step]
    cases h : assetUrl a with
    | none => simp [h, ih, List.filterMap_cons]
    | some u => simp [h, ih, injectAsset_append, List.filterMap_cons]

theorem injectList_none (at_ : AssetType) (body : List Element) :
    injectList at_ none body = body := rfl

/-- C7: the injection model exposes exactly three optional asset lists —
styles (injected as `link` elements with `rel` `"stylesheet"` and `href` the
asset URL), classic scripts (`script` elements with `type`
`"text/javascript"`) and module scripts (`script` elements with `type`
`"module"`) — and for each present list, one element per asset carrying a
value URL is appended to the document body, while an absent list contributes
no elements. -/
theorem injectModel_spec :
    assetTypes.length = 3 ∧
    (∀ (m : ModInjectModel) (body : List Element),
      injectAll m body =
        body ++ ((m.styles.getD []).filterMap assetUrl).map styleElem
          ++ ((m.scripts.getD []).filterMap assetUrl).map scriptElem
          ++ ((m.modules.getD []).filterMap assetUrl).map moduleElem) ∧
    (∀ body : List Element,
      injectAll { styles := none, scripts := none, modules := none } body = body) := by
  have hs : ∀ u, builtElem styleAT.type styleAT.tag u styleAT.defaults = styleElem u :=
    fun _ => rfl
  have hc : ∀ u, builtElem scriptAT.type scriptAT.tag u scriptAT.defaults = scriptElem u :=
    fun _ => rfl
  have hm : ∀ u, builtElem moduleAT.type moduleAT.tag u moduleAT.defaults = moduleElem u :=
    fun _ => rfl
  have main : ∀ (m : ModInjectModel) (body : List Element),
      injectAll m body =
        body ++ ((m.styles.getD []).filterMap assetUrl).map styleElem
          ++ ((m.scripts.getD []).filterMap assetUrl).map scriptElem
          ++ ((m.modules.getD []).filterMap assetUrl).map moduleElem := by
    intro m body
    have step : injectAll m body =
        injectList moduleAT m.modules
          (injectList scriptAT m.scripts (injectList styleAT m.styles body)) := rfl
    rw [step]
    cases h1 : m.styles <;> cases h2 : m.scripts <;> cases h3 : m.modules <;>
      simp [injectList_none, injectList_some, hs, hc, hm]
  exact ⟨rfl, main, fun body => by simp [main]⟩

/-- C8: asset injection is idempotent per subView: once `injectModAssets`
has found a `ModInjectModel` for a `resId` and injected its assets, the
`resId` is recorded and every subsequent call with the same `resId` (under
any subView table) changes nothing; a `resId` whose subView has no
`ModInjectModel` is not recorded, so a later call may still inject. -/
theorem injectModAssets_idempotent :
    (∀ (sv sv2 : Nat → Option ModInjectModel) (r : Nat) (st : InjectState)
        (m : ModInjectModel), sv r = some m → r ∉ st.injectedResIds →
      (injectModAssets sv r st).injectedResIds = st.injectedResIds ++ [r] ∧
      (injectModAssets sv r st).dom = injectAll m st.dom ∧
      injectModAssets sv2 r (injectModAssets sv r st) = injectModAssets sv r st) ∧
    (∀ (sv : Nat → Option ModInjectModel) (r : Nat) (st : InjectState),
      sv r = none → injectModAssets sv r st = st) := by
  constructor
  · intro sv sv2 r st m hm hr
    have h1 : injectModAssets sv r st =
        { injectedResIds := st.injectedResIds ++ [r], dom := injectAll m st.dom } := by
      simp [injectModAssets, hr, hm]
    refine ⟨by rw [h1], by rw [h1], ?_⟩
    have key : ∀ (sv3 : Nat → Option ModInjectModel) (x : InjectState),
        r ∈ x.injectedResIds → injectModAssets sv3 r x = x := by
      intro sv3 x hx
      simp [injectModAssets, hx]
    exact key sv2 _ (by rw [h1]; simp)
  · intro sv r st hn
    by_cases hr : r ∈ st.injectedResIds <;> simp [injectModAssets, hr, hn]

/-- Witness for C8: at `resId = 5` with the concrete table `svW`, a second
call after a successful injection is the identity, and a call against an
empty table leaves the state unchanged so a later call still injects. -/
theorem injectModAssets_idempotent_witness :
    (injectModAssets svW 5 (injectModAssets svW 5 { injectedResIds := [], dom := [] }) =
      injectModAssets svW 5 { injectedResIds := [], dom := [] }) ∧
    injectModAssets svNone 5 { injectedResIds := [], dom := [] } =
      { injectedResIds := [], dom := [] } :=
  ⟨(injectModAssets_idempotent.1 svW svW 5 { injectedResIds := [], dom := [] } mW
      (by decide) (by decide)).2.2,
    injectModAssets_idempotent.2 svNone 5 { injectedResIds := [], dom := [] } rfl⟩

theorem debugChildrenF_isSome (heap : Nat → JVal) (opts : DebugOptions) (fuel : Nat)
    (ih : ∀ a d pfx, opts.maxDepth + 1 - d < fuel →
      (debugObjectF heap opts fuel a d pfx).isSome) :
    ∀ (l : List (String × Nat)) (d : Nat), opts.maxDepth + 1 - d < fuel →
      (debugChildrenF heap opts fuel l d).isSome := by
  intro l
  induction l with
  | nil => intro d _; simp [debugChildrenF]
  | cons pa rest ihl =>
    intro d hd
    obtain ⟨p, a⟩ := pa
    obtain ⟨ls, hls⟩ := Option.isSome_iff_exists.mp (ih a d p hd)
    obtain ⟨rs, hrs⟩ := Option.isSome_iff_exists.mp (ihl d hd)
    simp [debugChildrenF, hls, hrs]

theorem debugObjectF_isSome (heap : Nat → JVal) (opts : DebugOptions) :
    ∀ (fuel a d : Nat) (pfx : String), opts.maxDepth + 1 - d < fuel →
      (debugObjectF heap opts fuel a d pfx).isSome := by
  intro fuel
  induction fuel with
  | zero => intro a d pfx h; omega
  | succ n ihn =>
    intro a d pfx h
    by_cases hd : d > opts.maxDepth
    · simp [debugObjectF, hd]
    · push_neg at hd
      have hch : ∀ (l : List (String × Nat)), (debugChildrenF heap opts n l (d + 1)).isSome :=
        fun l => debugChildrenF_isSome heap opts n ihn l (d + 1) (by omega)
      cases hh : heap a with
      | prim s => simp [debugObjectF, hd, hh, Nat.not_lt.mpr hd]
      | arr es =>
        cases es with
        | nil => simp [debugObjectF, hd, hh, Nat.not_lt.mpr hd]
        | cons e es' =>
          obtain ⟨ls, hls⟩ := Option.isSome_iff_exists.mp
            (hch (((e :: es').enum).map fun p => (arrayIndexMarker opts p.1, p.2)))
          simp [debugObjectF, hh, Nat.not_lt.mpr hd, hls]
      | obj fs =>
        cases fs with
        | nil => simp [debugObjectF, hd, hh, Nat.not_lt.mpr hd]
        | cons f fs' =>
          obtain ⟨ls, hls⟩ := Option.isSome_iff_exists.mp
            (hch ((f :: fs').map fun p => (p.1 ++ ": ", p.2)))
          simp only [List.map_cons] at hls
          simp [debugObjectF, hh, Nat.not_lt.mpr hd, hls]

theorem buildChildrenF_isSome (dom : Nat → Option DomElem) (fuel maxD : Nat)
    (ih : ∀ a d, maxD + 1 - d < fuel → (buildDebugTreeF dom fuel a d maxD).isSome) :
    ∀ (l : List Nat) (d : Nat), maxD + 1 - d < fuel →
      (buildChildrenF dom fuel l d maxD).isSome := by
  intro l
  induction l with
  | nil => intro d _; simp [buildChildrenF]
  | cons c rest ihl =>
    intro d hd
    obtain ⟨cn, hcn⟩ := Option.isSome_iff_exists.mp (ih c d hd)
    obtain ⟨rs, hrs⟩ := Option.isSome_iff_exists.mp (ihl d hd)
    simp [buildChildrenF, hcn, hrs]

theorem buildDebugTreeF_isSome (dom : Nat → Option DomElem) :
    ∀ (fuel a d maxD : Nat), maxD + 1 - d < fuel →
      (buildDebugTreeF dom fuel a d maxD).isSome := by
  intro fuel
  induction fuel with
  | zero => intro a d maxD h; omega
  | succ n ihn =>
    intro a d maxD h
    cases he : dom a with
    | none => simp [buildDebugTreeF, he]
    | some el =>
      by_cases hd : d > maxD
      · simp [buildDebugTreeF, he, hd]
      · push_neg at hd
        obtain ⟨cs, hcs⟩ := Option.isSome_iff_exists.mp
          (buildChildrenF_isSome dom n maxD (fun a2 d2 h2 => ihn a2 d2 maxD h2)
            el.children (d + 1) (by omega))
        simp [buildDebugTreeF, he, Nat.not_lt.mpr hd, hcs]

/-- C10: `debugObject` and `buildDebugTree` terminate on every input,
including cyclic object graphs: recursion carries a depth counter that
increases by one at each call and stops as soon as it exceeds the `maxDepth`
bound (default 10 for `debugObject`, the `maxDepth` argument for
`buildDebugTree`), so a fuel of `maxDepth + 2 - depth` always suffices and
the recursion depth is bounded. -/
theorem debug_termination :
    (∀ (heap : Nat → JVal) (opts : DebugOptions) (a : Nat),
      (debugObject heap opts a).isSome) ∧
    (∀ (heap : Nat → JVal) (opts : DebugOptions) (fuel a d : Nat) (pfx : String),
      d ≤ opts.maxDepth + 1 → opts.maxDepth + 2 - d ≤ fuel →
      (debugObjectF heap opts fuel a d pfx).isSome) ∧
    (∀ (dom : Nat → Option DomElem) (a : Nat), (buildDebugTree dom a).isSome) ∧
    (∀ (dom : Nat → Option DomElem) (fuel a d maxD : Nat),
      d ≤ maxD + 1 → maxD + 2 - d ≤ fuel →
      (buildDebugTreeF dom fuel a d maxD).isSome) := by
  refine ⟨fun heap opts a => ?_, fun heap opts fuel a d pfx h1 h2 => ?_,
    fun dom a => ?_, fun dom fuel a d maxD h1 h2 => ?_⟩
  · exact debugObjectF_isSome heap opts (opts.maxDepth + 2) a 0 "" (by omega)
  · exact debugObjectF_isSome heap opts fuel a d pfx (by omega)
  · exact buildDebugTreeF_isSome dom 12 a 0 10 (by omega)
  · exact buildDebugTreeF_isSome dom fuel a d maxD (by omega)

/-- Witness for C10: on a concrete cyclic heap (every address is an array
containing itself) and a concrete cyclic DOM (every element is its own
child), both functions produce a result with the stated fuel. -/
theorem debug_termination_witness :
    (debugObjectF cyclicHeap {} 12 0 0 "").isSome ∧
    (buildDebugTreeF cyclicDom 7 0 0 5).isSome :=
  ⟨debug_termination.2.1 cyclicHeap {} 12 0 0 "" (by decide) (by decide),
    debug_termination.2.2.2 cyclicDom 7 0 0 5 (by decide) (by decide)⟩

theorem nodup_subset_length {l1 l2 : List String} (h : l1.Nodup) (hs : l1 ⊆ l2) :
    l1.length ≤ l2.length := by
  have h1 : l1.toFinset.card = l1.length := List.toFinset_card_of_nodup h
  have h2 : l2.toFinset.card ≤ l2.length := l2.toFinset_card_le
  have h3 : l1.toFinset ⊆ l2.toFinset := by
    intro x hx
    simp only [List.mem_toFinset] at hx ⊢
    exact hs hx
  calc l1.length = l1.toFinset.card := h1.symm
    _ ≤ l2.toFinset.card := Finset.card_le_card h3
    _ ≤ l2.length := h2

theorem candidateKey_length (i : String) (n : Nat) :
    (candidateKey i n).length = (baseKey i).length + n := by
  have : (String.mk (List.replicate n 'f')).length = n := by
    show (List.replicate n 'f').length = n
    simp
  simp [candidateKey, String.length_append, this]

theorem candidateKey_injective (i : String) : Function.Injective (candidateKey i) := by
  intro n1 n2 h
  have := congrArg String.length h
  rw [candidateKey_length, candidateKey_length] at this
  omega

theorem allocKey_not_mem {used : List String} {i k : String}
    (h : allocKey used i = some k) : k ∉ used := by
  unfold allocKey at h
  cases hf : (List.range (used.length + 1)).find? (fun n => decide (candidateKey i n ∉ used)) with
  | none => rw [hf] at h; simp at h
  | some n =>
    rw [hf] at h
    simp at h
    rw [← h]
    have hp : decide (candidateKey i n ∉ used) = true := by
      have := List.find?_some hf
      simpa using this
    exact of_decide_eq_true hp

theorem allocKey_isSome (used : List String) (i : String) : (allocKey used i).isSome := by
  unfold allocKey
  cases hf : (List.range (used.length + 1)).find? (fun n => decide (candidateKey i n ∉ used)) with
  | some n => simp
  | none =>
    exfalso
    have hall : ∀ n ∈ List.range (used.length + 1), candidateKey i n ∈ used := by
      intro n hn
      have := List.find?_eq_none.mp hf n hn
      simpa using this
    have hsub : ((List.range (used.length + 1)).map (candidateKey i)) ⊆ used := by
      intro x hx
      obtain ⟨n, hn, rfl⟩ := List.mem_map.mp hx
      exact hall n hn
    have hnd : ((List.range (used.length + 1)).map (candidateKey i)).Nodup :=
      (List.nodup_range _).map (candidateKey_injective i)
    have hle := nodup_subset_length hnd hsub
    simp at hle

theorem allocItems_spec (items : List FragmentItem) : ∀ used : List String,
    (allocItems used items).2.2 = [] ∧
    (allocItems used items).2.1.length = items.length ∧
    ((allocItems used items).2.1.map Prod.fst).Nodup ∧
    (∀ k ∈ (allocItems used items).2.1.map Prod.fst, k ∉ used) ∧
    (allocItems used items).1.map Prod.fst = items.map FragmentItem.itemID := by
  induction items with
  | nil => intro used; simp [allocItems]
  | cons it rest ih =>
    intro used
    obtain ⟨k, hk⟩ := Option.isSome_iff_exists.mp (allocKey_isSome used it.itemID)
    have hknot : k ∉ used := allocKey_not_mem hk
    obtain ⟨ih1, ih2, ih3, ih4, ih5⟩ := ih (k :: used)
    have step : allocItems used (it :: rest) =
        ((it.itemID, k) :: (allocItems (k :: used) rest).1,
          (k, it.content) :: (allocItems (k :: used) rest).2.1,
          (allocItems (k :: used) rest).2.2) := by
      simp [allocItems, hk]
    rw [step]
    refine ⟨ih1, by simp [ih2], ?_, ?_, by simp [ih5]⟩
    · simp only [List.map_cons, List.nodup_cons]
      refine ⟨fun hmem => ?_, ih3⟩
      exact (ih4 k hmem) (List.mem_cons_self k used)
    · intro k2 hk2
      simp only [List.map_cons, List.mem_cons] at hk2
      cases hk2 with
      | inl h => rw [h]; exact hknot
      | inr h => exact fun hu => (ih4 k2 h) (List.mem_cons_of_mem k hu)

theorem lookup_append_left (k : String) (c1 c2 : Catalog)
    (h : k ∈ c1.map Prod.fst) :
    List.lookup k (c1 ++ c2) = List.lookup k c1 := by
  induction c1 with
  | nil => simp at h
  | cons p rest ih =>
    by_cases hk : k = p.1
    · simp [List.lookup, hk]
    · have hne : (k == p.1) = false := by simp [hk]
      have hmem : k ∈ rest.map Prod.fst := by
        simp only [List.map_cons, List.mem_cons] at h
        exact h.resolve_left hk
      simp [List.lookup, hne, ih hmem]

/-- C2: for every run with N accepted FragmentItems, the combined catalog
contains exactly N newly generated keys, pairwise distinct and each distinct
from every original-catalog key, alongside the original catalog's entries
unchanged. -/
theorem combined_catalog_uniqueness (original : Catalog) (frags : List Fragment) :
    buildCandidate original frags = original ++ generatedEntries original frags ∧
    (generatedEntries original frags).length = (acceptedItems frags).length ∧
    ((generatedEntries original frags).map Prod.fst).Nodup ∧
    (∀ k ∈ (generatedEntries original frags).map Prod.fst,
      k ∉ original.map Prod.fst) ∧
    (∀ k ∈ original.map Prod.fst,
      List.lookup k (buildCandidate original frags) = List.lookup k original) := by
  obtain ⟨_, h2, h3, h4, _⟩ := allocItems_spec (acceptedItems frags) (original.map Prod.fst)
  have hb : buildCandidate original frags = original ++ generatedEntries original frags := by
    simp [buildCandidate, generatedEntries, acceptedItems]
  refine ⟨hb, h2, h3, h4, fun k hk => ?_⟩
  rw [hb]
  exact lookup_append_left k original (generatedEntries original frags) hk

/-- Witness for C2 at a concrete original catalog and fragment list: the
generated key count matches, and the original entry is still looked up
unchanged in the combined catalog. -/
theorem combined_catalog_uniqueness_witness :
    (generatedEntries origW fragsW).length = (acceptedItems fragsW).length ∧
    List.lookup "00000001" (buildCandidate origW fragsW) =
      List.lookup "00000001" origW :=
  ⟨(combined_catalog_uniqueness origW fragsW).2.1,
    (combined_catalog_uniqueness origW fragsW).2.2.2.2 "00000001" (by decide)⟩

/-- C6: key allocation is deterministic across runs: for any two independent
fresh runs given the same `itemID` (and even for any serialized entry
content) with no other fragments, the Key Allocator derives the identical
key; the key is a function of the `itemID` and the original catalog's keys
alone. -/
theorem key_allocation_deterministic (original : Catalog) (i : String)
    (c1 c2 : Entry) :
    identifierIndex original [[{ itemID := some i, content := c1 }]] =
      identifierIndex original [[{ itemID := some i, content := c1 }]] ∧
    List.lookup i (identifierIndex original [[{ itemID := some i, content := c1 }]]) =
      List.lookup i (identifierIndex original [[{ itemID := some i, content := c2 }]]) ∧
    List.lookup i (identifierIndex original [[{ itemID := some i, content := c1 }]]) =
      allocKey (original.map Prod.fst) i := by
  obtain ⟨k, hk⟩ :=
    Option.isSome_iff_exists.mp (allocKey_isSome (original.map Prod.fst) i)
  have hrun : ∀ c : Entry,
      identifierIndex original [[{ itemID := some i, content := c }]] = [(i, k)] := by
    intro c
    simp [identifierIndex, collectItems, allocItems, hk]
  rw [hrun c1, hrun c2, hk]
  simp [List.lookup]

theorem collectItems_counts (d : String) : ∀ (raws : List RawItem) (seen : List String),
    ((collectItems raws seen).1.countP fun it => decide (it.itemID = d)) =
      (if d ∈ seen then 0
        else min 1 (raws.countP fun it => decide (it.itemID = some d))) ∧
    ((collectItems raws seen).2.1.countP fun x => decide (x = d)) =
      (if d ∈ seen then raws.countP fun it => decide (it.itemID = some d)
        else (raws.countP fun it => decide (it.itemID = some d)) - 1) := by
  intro raws
  induction raws with
  | nil =>
    intro seen
    by_cases h : d ∈ seen <;> simp [collectItems, h]
  | cons it rest ih =>
    intro seen
    match hid : it.itemID with
    | none =>
      have h1 := (ih seen).1
      have h2 := (ih seen).2
      by_cases hs : d ∈ seen <;>
        simp [collectItems, hid, List.countP_cons, h1, h2, hs]
    | some i2 =>
      by_cases hin : i2 ∈ seen
      · have h1 := (ih seen).1
        have h2 := (ih seen).2
        by_cases hd : d ∈ seen
        · by_cases hi2 : i2 = d <;>
            simp [collectItems, hid, hin, List.countP_cons, h1, h2, hd, hi2]
        · have hne : i2 ≠ d := fun h => hd (h ▸ hin)
          simp [collectItems, hid, hin, List.countP_cons, h1, h2, hd, hne]
      · by_cases heq : i2 = d
        · rw [heq] at hid hin
          have h1 := (ih (d :: seen)).1
          have h2 := (ih (d :: seen)).2
          have hmem : d ∈ d :: seen := List.mem_cons_self d seen
          simp only [collectItems, hid]
          simp [hin, hid, List.countP_cons, h1, h2, hmem]
        · have hne2 : d ≠ i2 := fun h => heq h.symm
          have hiff : (d ∈ i2 :: seen) ↔ (d ∈ seen) := by
            simp [List.mem_cons, hne2]
          have h1 := (ih (i2 :: seen)).1
          have h2 := (ih (i2 :: seen)).2
          by_cases hd : d ∈ seen <;>
            simp [collectItems, hid, hin, List.countP_cons, h1, h2, hd,
              hiff, heq, hne2]

theorem collectItems_first (d : String) : ∀ (raws : List RawItem) (seen : List String),
    d ∉ seen →
    ((collectItems raws seen).1.find? fun it => decide (it.itemID = d)) =
      (raws.find? fun it => decide (it.itemID = some d)).map
        (fun it => { itemID := d, content := it.content }) := by
  intro raws
  induction raws with
  | nil => intro seen _; simp [collectItems]
  | cons it rest ih =>
    intro seen hd
    match hid : it.itemID with
    | none =>
      simp [collectItems, hid, List.find?_cons, ih seen hd]
    | some i2 =>
      by_cases hin : i2 ∈ seen
      · have hne : i2 ≠ d := fun h => hd (h ▸ hin)
        simp [collectItems, hid, hin, List.find?_cons, hne, ih seen hd]
      · by_cases heq : i2 = d
        · rw [heq] at hid hin
          simp [collectItems, hid, hin, List.find?_cons]
        · have hne2 : d ≠ i2 := fun h => heq h.symm
          have hd2 : d ∉ i2 :: seen := by
            simp [List.mem_cons, hd, hne2]
          simp [collectItems, hid, hin, List.find?_cons, heq, hne2,
            ih (i2 :: seen) hd2]

/-- C5: when two FragmentItems across all loaded fragments declare the same
`itemID`, the IdentifierIndex ends with exactly one entry for that `itemID`
— coming from the first occurrence encountered, whose content is merged —
the later duplicate is skipped, and exactly one DuplicateIdentifierError is
reported. -/
theorem duplicate_identifier_handling (original : Catalog) (frags : List Fragment)
    (d : String)
    (h2 : (frags.flatten.countP fun it => decide (it.itemID = some d)) = 2) :
    (((identifierIndex original frags).map Prod.fst).countP
      fun x => decide (x = d)) = 1 ∧
    ((acceptedItems frags).find? fun it => decide (it.itemID = d)) =
      (frags.flatten.find? fun it => decide (it.itemID = some d)).map
        (fun it => { itemID := d, content := it.content }) ∧
    ((dupErrorsOf frags).countP fun x => decide (x = d)) = 1 := by
  have hidx : (identifierIndex original frags).map Prod.fst =
      (acceptedItems frags).map FragmentItem.itemID := by
    have := (allocItems_spec (acceptedItems frags) (original.map Prod.fst)).2.2.2.2
    simpa [identifierIndex, acceptedItems] using this
  obtain ⟨hc1, hc2⟩ := collectItems_counts d frags.flatten []
  refine ⟨?_, collectItems_first d frags.flatten [] (by simp), ?_⟩
  · rw [hidx, List.countP_map]
    have : ((collectItems frags.flatten []).1.countP
        fun it => decide (it.itemID = d)) = 1 := by
      rw [hc1]; simp [h2]
    simpa [acceptedItems, Function.comp] using this
  · show ((collectItems frags.flatten []).2.1.countP fun x => decide (x = d)) = 1
    rw [hc2]; simp [h2]

/-- Witness for C5: with two fragments both declaring `itemID = "dup/key"`,
exactly one DuplicateIdentifierError is reported. -/
theorem duplicate_identifier_handling_witness :
    ((GF.dupErrorsOf fragsDup).countP fun x => decide (x = "dup/key")) = 1 :=
  (duplicate_identifier_handling origW fragsDup "dup/key" (by decide)).2.2

theorem catalogEquals_refl (c : Catalog) : catalogEquals c c = true := by
  simp [catalogEquals]

/-- C1: running the reconciliation pipeline twice in succession with
unchanged fragment inputs leaves the persisted combined catalog the very
same value (hence byte-identical when serialized), and the second run
performs no write and requests no restart. -/
theorem pipeline_idempotent (original : Catalog) (frags : List Fragment)
    (st : StoreState) :
    (runPipeline original frags (runPipeline original frags st).1).1.combined =
      (runPipeline original frags st).1.combined ∧
    (runPipeline original frags (runPipeline original frags st).1).2.restartRequests = 0 ∧
    (runPipeline original frags (runPipeline original frags st).1).2.persistCount = 0 ∧
    (runPipeline original frags (runPipeline original frags st).1).2.validated = true := by
  by_cases hf : frags.isEmpty
  · cases hc : st.combined <;> simp [runPipeline, hf, hc]
  · cases hc : st.combined with
    | none =>
      cases hrf : st.restartFlag <;>
        simp [runPipeline, hf, hc, requestRestart, hrf, catalogEquals_refl]
    | some ex =>
      by_cases he : catalogEquals (buildCandidate original frags) ex <;>
        cases hrf : st.restartFlag <;>
          simp [runPipeline, hf, hc, he, requestRestart, hrf, catalogEquals_refl]

/-- C3: with a persisted combined catalog present, a candidate equal to it
is not persisted and no restart is requested — the pending restart flag is
cleared and the run validates — while a differing candidate is persisted and
restart is requested exactly once. -/
theorem change_detection (original : Catalog) (frags : List Fragment)
    (st : StoreState) (ex : Catalog) (hne : frags ≠ [])
    (hex : st.combined = some ex) :
    (catalogEquals (buildCandidate original frags) ex = true →
      (runPipeline original frags st).2.persistCount = 0 ∧
      (runPipeline original frags st).2.restartRequests = 0 ∧
      (runPipeline original frags st).1.restartFlag = false ∧
      (runPipeline original frags st).2.validated = true ∧
      (runPipeline original frags st).1.combined = some ex) ∧
    (catalogEquals (buildCandidate original frags) ex = false →
      (runPipeline original frags st).2.persistCount = 1 ∧
      (runPipeline original frags st).2.restartRequests = 1 ∧
      (runPipeline original frags st).2.validated = false ∧
      (runPipeline original frags st).1.combined =
        some (buildCandidate original frags)) := by
  have hf : frags.isEmpty = false := by
    cases frags with
    | nil => exact absurd rfl hne
    | cons a l => rfl
  constructor <;> intro he <;>
    cases hrf : st.restartFlag <;>
      simp [runPipeline, hf, hex, he, requestRestart, hrf]

/-- Witness for C3, both branches at concrete inputs: an existing catalog
equal to the candidate is not rewritten and clears the flag; an existing
catalog differing from the candidate is rewritten with exactly one restart
request. -/
theorem change_detection_witness :
    ((runPipeline origW fragsW
        { combined := some (buildCandidate origW fragsW), restartFlag := true }).2.persistCount = 0 ∧
      (runPipeline origW fragsW
        { combined := some (buildCandidate origW fragsW), restartFlag := true }).2.restartRequests = 0 ∧
      (runPipeline origW fragsW
        { combined := some (buildCandidate origW fragsW), restartFlag := true }).1.restartFlag = false ∧
      (runPipeline origW fragsW
        { combined := some (buildCandidate origW fragsW), restartFlag := true }).2.validated = true ∧
      (runPipeline origW fragsW
        { combined := some (buildCandidate origW fragsW), restartFlag := true }).1.combined =
        some (buildCandidate origW fragsW)) ∧
    ((runPipeline origW fragsW
        { combined := some [], restartFlag := false }).2.persistCount = 1 ∧
      (runPipeline origW fragsW
        { combined := some [], restartFlag := false }).2.restartRequests = 1 ∧
      (runPipeline origW fragsW
        { combined := some [], restartFlag := false }).2.validated = false ∧
      (runPipeline origW fragsW
        { combined := some [], restartFlag := false }).1.combined =
        some (buildCandidate origW fragsW)) :=
  ⟨(change_detection origW fragsW
      { combined := some (buildCandidate origW fragsW), restartFlag := true }
      (buildCandidate origW fragsW) (by decide) rfl).1 (catalogEquals_refl _),
    (change_detection origW fragsW { combined := some [], restartFlag := false }
      [] (by decide) rfl).2 (by decide)⟩

theorem restart_excludes_validation (original : Catalog) (frags : List Fragment)
    (st : StoreState)
    (h : 1 ≤ (runPipeline original frags st).2.restartRequests) :
    (runPipeline original frags st).2.validated = false := by
  by_cases hf : frags.isEmpty
  · cases hc : st.combined <;> simp [runPipeline, hf, hc] at h
  · cases hc : st.combined with
    | none =>
      cases hrf : st.restartFlag <;>
        simp [runPipeline, hf, hc, requestRestart, hrf]
    | some ex =>
      by_cases he : catalogEquals (buildCandidate original frags) ex
      · simp [runPipeline, hf, hc, he] at h
      · cases hrf : st.restartFlag <;>
          simp [runPipeline, hf, hc, he, requestRestart, hrf]

/-- The Pending broker state at process start. -/
theorem runFull_eq (original : Catalog) (frags : List Fragment) (st : StoreState)
    (br : BrokerState) :
    runFull original frags st br =
      ((runPipeline original frags st).1, (runPipeline original frags st).2,
        if (runPipeline original frags st).2.validated then fireValidated br
        else br) := by
  simp [runFull]

/-- C4: callbacks registered via `on_ready` before validation are invoked
exactly once, in registration order, at the moment validation succeeds; a
callback registered after the state is Validated is invoked immediately; and
when a restart is requested instead, no queued callback fires during that
process lifetime. -/
theorem readiness_callback_ordering :
    (∀ (c1 c2 c3 : Nat) (original : Catalog) (frags : List Fragment)
        (st : StoreState),
      ((runPipeline original frags st).2.validated = true →
        (runFull original frags st (onReady c3 (onReady c2 (onReady c1
          { validated := false, queue := [], log := [] })))).2.2.log = [c1, c2, c3]) ∧
      (1 ≤ (runPipeline original frags st).2.restartRequests →
        (runFull original frags st (onReady c3 (onReady c2 (onReady c1
          { validated := false, queue := [], log := [] })))).2.2.log = [])) ∧
    (∀ (cb : Nat) (br : BrokerState), br.validated = true →
      onReady cb br =
        { validated := br.validated, queue := br.queue, log := br.log ++ [cb] }) := by
  constructor
  · intro c1 c2 c3 original frags st
    have hbr : onReady c3 (onReady c2 (onReady c1
        { validated := false, queue := [], log := [] })) =
        { validated := false, queue := [c1, c2, c3], log := [] } := by
      simp [onReady]
    rw [runFull_eq, hbr]
    constructor
    · intro hv
      simp [hv, fireValidated]
    · intro hr
      simp [restart_excludes_validation original frags st hr]
  · intro cb br hv
    simp [onReady, hv]

/-- Witness for C4: at concrete inputs, a validating run fires the three
queued callbacks in order; a run that requests a restart fires none; and a
callback registered on a Validated broker is logged immediately. -/
theorem readiness_callback_ordering_witness :
    ((runFull origW fragsW
        { combined := some (buildCandidate origW fragsW), restartFlag := false }
        (onReady 3 (onReady 2 (onReady 1
          { validated := false, queue := [], log := [] })))).2.2.log = [1, 2, 3]) ∧
    ((runFull origW fragsW { combined := none, restartFlag := false }
        (onReady 3 (onReady 2 (onReady 1
          { validated := false, queue := [], log := [] })))).2.2.log = []) ∧
    onReady 7 { validated := true, queue := [], log := [] } =
      { validated := true, queue := [], log := [7] } :=
  ⟨(readiness_callback_ordering.1 1 2 3 origW fragsW
      { combined := some (buildCandidate origW fragsW), restartFlag := false }).1
      (by simp only [runPipeline, catalogEquals_refl]; decide),
    (readiness_callback_ordering.1 1 2 3 origW fragsW
      { combined := none, restartFlag := false }).2 (by decide),
    readiness_callback_ordering.2 7
      { validated := true, queue := [], log := [] } rfl⟩

end GF
